import Mathlib

/-!
Verification of the flume log-management core (`factory.go`, `logger.go`).

The Go source is shallowly embedded: the `Factory` registry, its
administrative operations (`SetLevel`, `SetDefaultLevel`, `SetEncoder`,
`SetOut`, `SetAddCaller`, `LevelsString`, `Configure`), the config-string
DSL parser, the per-name atomic handles (modelled as the currently
published `BuiltLogger` value of each registry entry), and the logger
facade (`With`, `Debug`, `normalizeArgs`).  Mutation is modelled by
explicit state passing; the `sync.Mutex` serializes the write path in Go,
so the sequential state-passing semantics is the faithful model of the
locked sections.  Go `map` iteration order is arbitrary; every place the
source iterates a map, the iterated operations commute across distinct
keys, so a fixed association-list order is an equivalent model.
-/

namespace Flume

/-! ## Strings: helpers mirroring `strings.Split`, `strings.ToLower`,
`strings.HasPrefix` from the Go standard library, restricted to the
single-character separators and ASCII arguments the source uses. -/

/-- Split a character list at every occurrence of `c` (Go `strings.Split`
semantics: splitting the empty string yields one empty chunk). -/
def splitOnChar (c : Char) : List Char → List (List Char)
  | [] => [[]]
  | x :: xs =>
    let r := splitOnChar c xs
    if x = c then [] :: r
    else
      match r with
      | [] => [[x]]
      | y :: ys => (x :: y) :: ys

/-- Go `strings.Split(s, c)` for a one-character separator. -/
def splitStr (c : Char) (s : String) : List String :=
  (splitOnChar c s.data).map (fun l => ⟨l⟩)

/-- Go `strings.ToLower` (the source only lowercases ASCII level
abbreviations). -/
def toLowerStr (s : String) : String := ⟨s.data.map Char.toLower⟩

/-- Go `strings.HasPrefix(s, "-")`. -/
def startsWithDash (s : String) : Bool :=
  match s.data with
  | [] => false
  | c :: _ => c = '-'

/-- Go `s[1:]` for the one-byte prefix the source strips. -/
def dropFirst (s : String) : String := ⟨s.data.drop 1⟩

/-- Go `strings.Join(l, ", ")`. -/
def joinComma : List String → String
  | [] => ""
  | [x] => x
  | x :: rest => x ++ ", " ++ joinComma rest

/-! ## Severity levels

`level.go` is not part of the sources under verification; only its
constant names appear in `factory.go`. -/

/-- Modelled from the spec: the Severity Level enumeration of `level.go`
(not in src), "an ordered enumeration {OFF, ERROR, WARN(deprecated alias
of INFO), INFO, DEBUG, ALL/TRACE-alias}". -/
inductive Level where
  | off
  | error
  | info
  | debug
  | all
  deriving DecidableEq

/-- Modelled from the spec: `OffLevel` of `level.go` (not in src). -/
def OffLevel : Level := .off

/-- Modelled from the spec: `ErrorLevel` of `level.go` (not in src). -/
def ErrorLevel : Level := .error

/-- Modelled from the spec: `InfoLevel` of `level.go` (not in src). -/
def InfoLevel : Level := .info

/-- Modelled from the spec: `DebugLevel` of `level.go` (not in src). -/
def DebugLevel : Level := .debug

/-- Modelled from the spec: `AllLevel` of `level.go` (not in src). -/
def AllLevel : Level := .all

/-- Modelled from the spec: `WarnLevel` of `level.go` (not in src); the
spec states WARN is a "deprecated alias of INFO", i.e. the INFO severity. -/
def WarnLevel : Level := .info

/-- Modelled from the spec: `PanicLevel` of `level.go` (not in src); the
spec states a legacy "panic"/"fatal" abbreviation "maps onto the ERROR
severity". -/
def PanicLevel : Level := .error

/-! ## Encoders, writers, encoder configs

The concrete encoders are external collaborators; `factory.go` only
selects among them and stores the choice. -/

/-- Modelled from the spec: a caller-location encoder choice inside an
encoder config (`zapcore.ShortCallerEncoder` and friends, not in src). -/
inductive CallerEnc where
  | short
  | full
  deriving DecidableEq

/-- Modelled from the spec: a level encoder choice inside an encoder
config (`AbbrLevelEncoder` and friends, not in src). -/
inductive LevelEnc where
  | abbr
  | plain
  deriving DecidableEq

/-- Modelled from the spec: the encoder configuration value
(`EncoderConfig`, not in src).  Only the two fields `factory.go` patches
(`EncodeCaller`, `EncodeLevel`) and a tag distinguishing the development
preset are represented. -/
structure EncoderConfig where
  encodeCaller : Option CallerEnc
  encodeLevel : Option LevelEnc
  development : Bool
  deriving DecidableEq

/-- Modelled from the spec: `NewEncoderConfig` (not in src), the
production preset with no caller/level encoder set. -/
def NewEncoderConfig : EncoderConfig := ⟨none, none, false⟩

/-- Modelled from the spec: `NewDevelopmentEncoderConfig` (not in src). -/
def NewDevelopmentEncoderConfig : EncoderConfig := ⟨none, none, true⟩

/-- Modelled from the spec: an opaque encoder value; the constructors are
the "small fixed set of named encodings" `Configure` selects among, plus
the zap console encoder used for the "console" choice. -/
inductive Encoder where
  | ltsv (cfg : EncoderConfig)
  | json (cfg : EncoderConfig)
  | term (cfg : EncoderConfig)
  | termColor (cfg : EncoderConfig)
  | zapConsole (cfg : EncoderConfig)
  deriving DecidableEq

/-- Modelled from the spec: `NewLTSVEncoder` (not in src). -/
def NewLTSVEncoder (c : EncoderConfig) : Encoder := .ltsv c

/-- Modelled from the spec: `NewJSONEncoder` (not in src). -/
def NewJSONEncoder (c : EncoderConfig) : Encoder := .json c

/-- Modelled from the spec: flume's `NewConsoleEncoder` (not in src),
selected by the "term" encoding choice. -/
def NewConsoleEncoder (c : EncoderConfig) : Encoder := .term c

/-- Modelled from the spec: `NewColorizedConsoleEncoder` (not in src);
the source always passes `nil` for its second argument. -/
def NewColorizedConsoleEncoder (c : EncoderConfig) : Encoder := .termColor c

/-- Modelled from the spec: an opaque output sink (`io.Writer`), "something
that can be written bytes"; distinct sinks are distinguished by identity. -/
inductive Writer where
  | stdout
  | sink (id : Nat)
  deriving DecidableEq

/-! ## The registry data model (`factory.go`) -/

/-- A `zapcore.LevelEnabler` as stored in a `loggerInfo`: either a fixed
`zapcore.Level` (set by `setLevel`) or the factory's shared
`zap.AtomicLevel` default (assigned when an entry is reset to track the
default), which resolves against the live default level. -/
inductive LevelEnabler where
  | fixed (l : Level)
  | defaultRef
  deriving DecidableEq

/-- The concrete `*zap.SugaredLogger` built by `Factory.newLogger`: it
snapshots the encoder, output sink and caller flag at build time, and
carries the enabler it was built with (`zapcore.NewCore(encoder, out, l)`
with `zap.AddCaller` when configured, `.Named(name).Sugar()`). -/
structure BuiltLogger where
  name : String
  enabler : LevelEnabler
  encoder : Encoder
  out : Writer
  addCaller : Bool
  deriving DecidableEq

/-- `loggerInfo`: per-name registry state.  `levelEnabler = none` models
the nil interface of a freshly created entry; `atomicLogger` is the
instance currently published in the entry's atomic handle. -/
structure LoggerInfo where
  levelEnabler : Option LevelEnabler
  atomicLogger : BuiltLogger
  deriving DecidableEq

/-- `Factory`: the registry.  `loggers` models the Go
`map[string]*loggerInfo` as an association list with unique keys;
`defaultLevel` is the current value of the `zap.AtomicLevel`. -/
structure Factory where
  defaultLevel : Level
  encoder : Option Encoder
  out : Option Writer
  loggers : List (String × LoggerInfo)
  addCaller : Bool
  deriving DecidableEq

/-! ## Association-list primitives for the `loggers` map -/

/-- First-match lookup in an association list (Go map read). -/
def alookup {α : Type} (k : String) : List (String × α) → Option α
  | [] => none
  | (k', v) :: rest => if k' = k then some v else alookup k rest

/-- Go map write: replace the binding of `k` if present, else append it. -/
def aupdate {α : Type} (k : String) (v : α) : List (String × α) → List (String × α)
  | [] => [(k, v)]
  | (k', v') :: rest =>
    if k' = k then (k, v) :: rest else (k', v') :: aupdate k v rest

/-- In-place mutation through a `*loggerInfo` pointer obtained from the
map: rewrite the value bound to `k`. -/
def amodify {α : Type} (k : String) (f : α → α) : List (String × α) → List (String × α)
  | [] => []
  | (k', v') :: rest =>
    if k' = k then (k', f v') :: amodify k f rest else (k', v') :: amodify k f rest

/-- Go `delete(m, k)`. -/
def aremove {α : Type} (k : String) : List (String × α) → List (String × α)
  | [] => []
  | (k', v) :: rest => if k' = k then aremove k rest else (k', v) :: aremove k rest

/-- Rewrite every value of the map, keeping keys (a Go `for name, info :=
range` loop that writes through the `*loggerInfo` pointers). -/
def mapVals {α : Type} (f : String → α → α) (l : List (String × α)) :
    List (String × α) :=
  l.map fun p => (p.1, f p.1 p.2)

/-- The key list of the map. -/
def keys {α : Type} (l : List (String × α)) : List String := l.map Prod.fst

/-! ## Factory operations (`factory.go`) -/

/-- `NewFactory`: default level OFF, no encoder/output override, empty
registry, caller capture off. -/
def NewFactory : Factory :=
  { defaultLevel := OffLevel
    encoder := none
    out := none
    loggers := []
    addCaller := false }

/-- `getEncoder`: the configured encoder, or the LTSV default. -/
def getEncoder (r : Factory) : Encoder :=
  match r.encoder with
  | none => NewLTSVEncoder NewEncoderConfig
  | some e => e

/-- `getOut`: the configured writer, or `os.Stdout`. -/
def getOut (r : Factory) : Writer :=
  match r.out with
  | none => Writer.stdout
  | some w => w

/-- `newLogger`: build the concrete instance for `name` from the entry's
enabler (the shared atomic default when the entry has none) and the
current shared settings. -/
def newLogger (r : Factory) (name : String) (le : Option LevelEnabler) :
    BuiltLogger :=
  { name := name
    enabler := match le with | some e => e | none => .defaultRef
    encoder := getEncoder r
    out := getOut r
    addCaller := r.addCaller }

/-- `refreshLoggers`: rebuild and republish every entry's concrete
instance from the current shared settings. -/
def refreshLoggers (r : Factory) : Factory :=
  { r with
    loggers := mapVals
      (fun name info => { info with atomicLogger := newLogger r name info.levelEnabler })
      r.loggers }

/-- `getLoggerInfo`: look up the entry for `name`, creating it (and
publishing its initial instance) if absent. -/
def getLoggerInfo (r : Factory) (name : String) : Factory :=
  match alookup name r.loggers with
  | some _ => r
  | none =>
    { r with
      loggers := r.loggers ++ [(name, ⟨none, newLogger r name none⟩)] }

/-- `SetEncoder`. -/
def SetEncoder (r : Factory) (e : Encoder) : Factory :=
  refreshLoggers { r with encoder := some e }

/-- `SetOut`: swap the output writer, refresh, and return the captured
prior writer (the restorer closure simply calls `SetOut` with it). -/
def SetOut (r : Factory) (w : Option Writer) : Factory × Option Writer :=
  (refreshLoggers { r with out := w }, r.out)

/-- `SetAddCaller`. -/
def SetAddCaller (r : Factory) (b : Bool) : Factory :=
  refreshLoggers { r with addCaller := b }

/-- `setLevel` (unexported): ensure the entry exists, then set its
enabler to the fixed `zapcore.Level(l)`. -/
def setLevel (r : Factory) (name : String) (l : Level) : Factory :=
  let r := getLoggerInfo r name
  { r with
    loggers := amodify name (fun i => { i with levelEnabler := some (.fixed l) }) r.loggers }

/-- `SetLevel`: set a per-name level and refresh all loggers. -/
def SetLevel (r : Factory) (name : String) (l : Level) : Factory :=
  refreshLoggers (setLevel r name l)

/-- `SetDefaultLevel`: store into the shared `zap.AtomicLevel`; no
refresh. -/
def SetDefaultLevel (r : Factory) (l : Level) : Factory :=
  { r with defaultLevel := l }

/-! ## The logger facade (`logger.go`) -/

/-- An opaque logging field payload (the `interface{}` values callers
pass). -/
inductive Value where
  | str (s : String)
  | int (i : Int)
  | boolean (b : Bool)
  deriving DecidableEq

/-- A variadic logging argument: either an explicit structured
`zapcore.Field` or a bare value of any other dynamic type. -/
inductive Arg where
  | field (key : String) (v : Value)
  | bare (v : Value)
  deriving DecidableEq

/-- `zap.Any(key, v)`: wrap a value into a keyed field. -/
def zapAny (key : String) (v : Value) : Arg := .field key v

/-- `normalizeArgs`: a single bare non-field argument is promoted to a
field with an empty key; everything else is passed through. -/
def normalizeArgs : List Arg → List Arg
  | [a] =>
    match a with
    | .field k v => [.field k v]
    | .bare v => [zapAny "" v]
  | args => args

/-- The `logger` struct: a facade holding a reference to one entry's
atomic handle (identified by the entry name it was created for) plus its
baked-in context. -/
structure FLogger where
  handle : String
  context : List Arg
  deriving DecidableEq

/-- `NewDeprecatedLogger`: ensure the entry exists and hand out a facade
bound to its atomic handle with no baked-in context. -/
def NewDeprecatedLogger (r : Factory) (name : String) : Factory × FLogger :=
  (getLoggerInfo r name, ⟨name, []⟩)

/-- `NewLogger` delegates to `NewDeprecatedLogger`. -/
def NewLogger (r : Factory) (name : String) : Factory × FLogger :=
  NewDeprecatedLogger r name

/-- Dereference a facade's atomic handle: the concrete instance currently
published for its entry. -/
def observe (r : Factory) (lg : FLogger) : Option BuiltLogger :=
  (alookup lg.handle r.loggers).map (·.atomicLogger)

/-- The record a facade's `Debug` call forwards to the published zap
logger: message plus baked-in context merged before the normalized
call-site arguments (`Debugw(msg, append(l.context, args...)...)`). -/
structure LogCall where
  msg : String
  fields : List Arg
  deriving DecidableEq

/-- `Debug` (and identically `Trace`/`Info`/`Warn`/`Error`/`Fatal`):
normalize the arguments, then prepend the baked-in context when
non-empty. -/
def Debug (l : FLogger) (msg : String) (args : List Arg) : LogCall :=
  let args := normalizeArgs args
  if 0 < l.context.length then ⟨msg, l.context ++ args⟩ else ⟨msg, args⟩

/-- `clone`: copy the facade; the context is copied into a fresh backing
sequence (or left empty when empty). -/
def clone (l : FLogger) : FLogger :=
  { l with context := if 0 < l.context.length then l.context else [] }

/-- `With`: derive a child facade whose context is the parent's context
followed by the normalized arguments. -/
def With (l : FLogger) (args : List Arg) : FLogger :=
  let l2 := clone l
  let args := normalizeArgs args
  match args with
  | [] => l2
  | _ => { l2 with context := l2.context ++ args }

/-! ## The config-string DSL (`factory.go`) -/

/-- The dynamic value stored per key by `parseConfigString`: Go stores
`bool` for bare/`-` names and `string` for `name=ABBR` items. -/
inductive ConfigVal where
  | flag (b : Bool)
  | abbr (s : String)
  deriving DecidableEq

/-- One iteration of the `parseConfigString` loop: split the item on `=`;
a bare name maps to `true`, `-name` to `false`, `name=v` to the string
`v`; malformed items (two or more `=`) are dropped. -/
def parseItem (m : List (String × ConfigVal)) (setting : String) :
    List (String × ConfigVal) :=
  match splitStr '=' setting with
  | [name] =>
    if startsWithDash name then aupdate (dropFirst name) (.flag false) m
    else aupdate name (.flag true) m
  | [k, v] => aupdate k (.abbr v) m
  | _ => m

/-- `parseConfigString`: split on commas and fold the items into the
name map (later items overwrite earlier ones, as with a Go map). -/
def parseConfigString (s : String) : List (String × ConfigVal) :=
  if s = "" then [] else (splitStr ',' s).foldl parseItem []

/-- The body of `levelForAbbr` after lowercasing: the `switch` over the
recognized abbreviations.  `orig` is the original spelling used in the
"not recognized" message. -/
def levelForAbbrLower (s : String) (orig : String) : Level × Option String :=
  if s = "" then (AllLevel, none)
  else if s = "off" then (OffLevel, none)
  else if s = "trc" ∨ s = "trace" then
    (DebugLevel, some "TRC is deprecated, mapped to DEBUG")
  else if s = "dbg" ∨ s = "debug" then (DebugLevel, none)
  else if s = "inf" ∨ s = "info" then (InfoLevel, none)
  else if s = "wrn" ∨ s = "warn" then (WarnLevel, some "WRN is deprecated, use INF")
  else if s = "err" ∨ s = "error" then (ErrorLevel, none)
  else if s = "pan" ∨ s = "panic" then (PanicLevel, some "PAN is deprecated, use ERR")
  else if s = "ftl" ∨ s = "fatal" then
    (PanicLevel, some "FTL is deprecated, use ERR, mapped to PANIC")
  else (WarnLevel, some (orig ++ " not recognized level, defaulting to warn"))

/-- `levelForAbbr`: case-insensitive abbreviation resolution, with
deprecation notes for legacy abbreviations and a WARN fallback plus note
for unrecognized ones. -/
def levelForAbbr (abbr : String) : Level × Option String :=
  levelForAbbrLower (toLowerStr abbr) abbr

/-- The abbreviations `levelForAbbr` recognizes (everything else takes
its fallback branch). -/
def recognizedAbbrs : List String :=
  ["", "off", "trc", "trace", "dbg", "debug", "inf", "info",
   "wrn", "warn", "err", "error", "pan", "panic", "ftl", "fatal"]

/-- One iteration of the first loop of `LevelsString`: convert one parsed
entry (`true ↦ AllLevel`, `false ↦ OffLevel`, abbreviations via
`levelForAbbr`) and accumulate any error message. -/
def buildLevelStep (acc : List (String × Level) × List String)
    (kv : String × ConfigVal) : List (String × Level) × List String :=
  match kv.2 with
  | .flag b => (aupdate kv.1 (if b then AllLevel else OffLevel) acc.1, acc.2)
  | .abbr s =>
    let le := levelForAbbr s
    (aupdate kv.1 le.1 acc.1,
     match le.2 with
     | some msg => acc.2 ++ [msg]
     | none => acc.2)

/-- The first loop of `LevelsString`: the level map and the accumulated
error messages. -/
def buildLevelMap (m : List (String × ConfigVal)) :
    List (String × Level) × List String :=
  m.foldl buildLevelStep ([], [])

/-- The parse phase of `LevelsString`. -/
def levelsFromString (s : String) : List (String × Level) × List String :=
  buildLevelMap (parseConfigString s)

/-- The `*` handling of `LevelsString`: when the level map carries a `*`
entry, set the default level from it and drop it from the map. -/
def starSplit (r : Factory) (lm0 : List (String × Level)) :
    Factory × List (String × Level) :=
  match alookup "*" lm0 with
  | some d => (SetDefaultLevel r d, aremove "*" lm0)
  | none => (r, lm0)

/-- The reset loop of `LevelsString`: every existing entry not mentioned
in the level map has its enabler set to the shared atomic default. -/
def clearUnmentioned (r : Factory) (lm : List (String × Level)) : Factory :=
  { r with
    loggers := mapVals
      (fun name info =>
        if (alookup name lm).isSome then info
        else { info with levelEnabler := some .defaultRef })
      r.loggers }

/-- The final loop of `LevelsString`: `setLevel` for every mentioned
name. -/
def setLevels (r : Factory) (lm : List (String × Level)) : Factory :=
  lm.foldl (fun acc kv => setLevel acc kv.1 kv.2) r

/-- The apply phase of `LevelsString`: apply a `*` entry to the default
level, reset every existing entry not mentioned in the map to track the
default, then set every mentioned name's level (creating entries as
`setLevel` does). -/
def applyLevelMap (r : Factory) (lm0 : List (String × Level)) : Factory :=
  let p := starSplit r lm0
  setLevels (clearUnmentioned p.1 p.2) p.2

/-- `LevelsString`: parse, apply, then either return the aggregated error
(without refreshing) or refresh all loggers and return success. -/
def LevelsString (r : Factory) (s : String) : Factory × Option String :=
  let pe := levelsFromString s
  let r := applyLevelMap r pe.1
  if pe.2.isEmpty then (refreshLoggers r, none)
  else (r, some ("errors parsing config string: " ++ joinComma pe.2))

/-! ## Structured configuration (`factory.go` `Configure`) -/

/-- Modelled from the spec: the structured configuration value (`Config`,
not in src): default level; optional explicit encoder-config override;
encoding choice; development-mode flag; optional explicit caller-capture
flag; level-string spec. -/
structure Config where
  defaultLevel : Level
  encoderConfig : Option EncoderConfig
  encoding : String
  development : Bool
  addCaller : Option Bool
  levels : String
  deriving DecidableEq

/-- The encoding switch of `Configure`: the recognized choices, the
development-dependent default for the empty choice, and `none` for an
unrecognized choice. -/
def encoderChoice (enc : String) (dev : Bool) (c : EncoderConfig) :
    Option Encoder :=
  if enc = "json" then some (NewJSONEncoder c)
  else if enc = "ltsv" then some (NewLTSVEncoder c)
  else if enc = "term" then some (NewConsoleEncoder c)
  else if enc = "term-color" then some (NewColorizedConsoleEncoder c)
  else if enc = "console" then some (.zapConsole c)
  else if enc = "" then
    some (if dev then NewColorizedConsoleEncoder c else NewLTSVEncoder c)
  else none

/-- `Configure`: set the default level, derive the encoder config and the
encoder choice (failing on an unrecognized encoding), derive caller
capture, apply the level string (discarding its returned error), install
the encoder and caller flag, and refresh. -/
def Configure (r : Factory) (cfg : Config) : Factory × Option String :=
  let r := SetDefaultLevel r cfg.defaultLevel
  let encCfg :=
    match cfg.encoderConfig with
    | some c => c
    | none =>
      if cfg.development then NewDevelopmentEncoderConfig else NewEncoderConfig
  let encCfg :=
    if encCfg.encodeCaller.isNone then { encCfg with encodeCaller := some CallerEnc.short }
    else encCfg
  let encCfg :=
    if encCfg.encodeLevel.isNone then { encCfg with encodeLevel := some LevelEnc.abbr }
    else encCfg
  match encoderChoice cfg.encoding cfg.development encCfg with
  | none =>
    (r, some (cfg.encoding ++ " is not a valid encoding, must be one of: json, ltsv, term, or term-color"))
  | some enc =>
    let addCaller :=
      match cfg.addCaller with
      | some b => b
      | none => cfg.development
    let r := (LevelsString r cfg.levels).1
    let r := { r with encoder := some enc, addCaller := addCaller }
    (refreshLoggers r, none)

/-! ## Derived notions used by the claims -/

/-- The effective minimum severity governing `name`: the per-name
override when fixed, otherwise the live default. -/
def effectiveLevel (r : Factory) (name : String) : Level :=
  match alookup name r.loggers with
  | none => r.defaultLevel
  | some info =>
    match info.levelEnabler with
    | none => r.defaultLevel
    | some .defaultRef => r.defaultLevel
    | some (.fixed l) => l

/-- One administrative reconfiguration event on the registry. -/
inductive AdminOp where
  | encoderOp (e : Encoder)
  | outOp (w : Option Writer)
  | callerOp (b : Bool)
  | levelOp (n : String) (l : Level)
  | defaultOp (l : Level)
  | levelsOp (s : String)
  | configOp (c : Config)
  deriving DecidableEq

/-- Apply one administrative operation. -/
def applyOp (r : Factory) : AdminOp → Factory
  | .encoderOp e => SetEncoder r e
  | .outOp w => (SetOut r w).1
  | .callerOp b => SetAddCaller r b
  | .levelOp n l => SetLevel r n l
  | .defaultOp l => SetDefaultLevel r l
  | .levelsOp s => (LevelsString r s).1
  | .configOp c => (Configure r c).1

/-- Apply a sequence of administrative operations. -/
def applyOps (r : Factory) (ops : List AdminOp) : Factory :=
  ops.foldl applyOp r

/-! ## Lemmas about the association-list primitives -/

theorem alookup_cons {α : Type} (k n : String) (v : α) (l : List (String × α)) :
    alookup n ((k, v) :: l) = if k = n then some v else alookup n l := rfl

theorem alookup_mapVals {α : Type} (f : String → α → α) (l : List (String × α))
    (n : String) : alookup n (mapVals f l) = (alookup n l).map (f n) := by
  induction l with
  | nil => rfl
  | cons p rest ih =>
    obtain ⟨k, v⟩ := p
    by_cases h : k = n
    · subst h
      simp [mapVals, alookup]
    · simp only [mapVals, List.map_cons] at ih ⊢
      simp [alookup, h, ih]

theorem alookup_append_ne {α : Type} {n' n : String} (l : List (String × α))
    (h : n' ≠ n) (v : α) : alookup n' (l ++ [(n, v)]) = alookup n' l := by
  induction l with
  | nil => simp [alookup, Ne.symm h]
  | cons p rest ih =>
    obtain ⟨k, w⟩ := p
    by_cases hk : k = n' <;> simp [alookup, hk, ih]

theorem alookup_append_self {α : Type} {n : String} (l : List (String × α))
    (h : alookup n l = none) (v : α) : alookup n (l ++ [(n, v)]) = some v := by
  induction l with
  | nil => simp [alookup]
  | cons p rest ih =>
    obtain ⟨k, w⟩ := p
    by_cases hk : k = n
    · simp [alookup, hk] at h
    · simp only [alookup, hk, if_false, List.cons_append] at h ⊢
      simp [hk]
      exact ih h

theorem alookup_amodify_self {α : Type} (n : String) (f : α → α)
    (l : List (String × α)) : alookup n (amodify n f l) = (alookup n l).map f := by
  induction l with
  | nil => rfl
  | cons p rest ih =>
    obtain ⟨k, v⟩ := p
    by_cases hk : k = n <;> simp [amodify, alookup, hk, ih]

theorem alookup_amodify_ne {α : Type} {n' n : String} (f : α → α)
    (l : List (String × α)) (h : n' ≠ n) :
    alookup n' (amodify n f l) = alookup n' l := by
  induction l with
  | nil => rfl
  | cons p rest ih =>
    obtain ⟨k, v⟩ := p
    by_cases hk : k = n
    · subst hk
      simp [amodify, alookup, Ne.symm h, ih]
    · by_cases hk' : k = n' <;> simp [amodify, alookup, hk, hk', h, ih]

theorem alookup_aremove_ne {α : Type} {n k : String} (l : List (String × α))
    (h : n ≠ k) : alookup n (aremove k l) = alookup n l := by
  induction l with
  | nil => rfl
  | cons p rest ih =>
    obtain ⟨k', v⟩ := p
    by_cases hk : k' = k
    · subst hk
      simp [aremove, alookup, Ne.symm h, ih]
    · by_cases hk' : k' = n <;> simp [aremove, alookup, hk, hk', h, ih]

theorem mem_keys_cons {α : Type} (k m : String) (v : α) (l : List (String × α)) :
    m ∈ keys ((k, v) :: l) ↔ m = k ∨ m ∈ keys l := by
  simp [keys, eq_comm]

theorem alookup_eq_none_iff {α : Type} (n : String) (l : List (String × α)) :
    alookup n l = none ↔ n ∉ keys l := by
  induction l with
  | nil => simp [alookup, keys]
  | cons p rest ih =>
    obtain ⟨k, v⟩ := p
    by_cases hk : k = n
    · subst hk
      simp [alookup, keys]
    · simp [alookup, keys, hk, ih, Ne.symm hk]

theorem mem_keys_aupdate_elim {α : Type} {m k : String} (v : α)
    (l : List (String × α)) (h : m ∈ keys (aupdate k v l)) :
    m = k ∨ m ∈ keys l := by
  induction l with
  | nil =>
    left
    simpa [aupdate, keys] using h
  | cons p rest ih =>
    obtain ⟨k', v'⟩ := p
    by_cases hk : k' = k
    · subst hk
      simp only [aupdate, if_pos rfl] at h
      rcases (mem_keys_cons _ _ _ _).mp h with he | he
      · exact Or.inl he
      · exact Or.inr ((mem_keys_cons _ _ _ _).mpr (Or.inr he))
    · simp only [aupdate, hk, if_false] at h
      rcases (mem_keys_cons _ _ _ _).mp h with he | he
      · exact Or.inr ((mem_keys_cons _ _ _ _).mpr (Or.inl he))
      · rcases ih he with he' | he'
        · exact Or.inl he'
        · exact Or.inr ((mem_keys_cons _ _ _ _).mpr (Or.inr he'))

theorem nodup_keys_aupdate {α : Type} {k : String} (v : α) {l : List (String × α)}
    (h : (keys l).Nodup) : (keys (aupdate k v l)).Nodup := by
  induction l with
  | nil => simp [aupdate, keys]
  | cons p rest ih =>
    obtain ⟨k', v'⟩ := p
    by_cases hk : k' = k
    · subst hk
      simpa [aupdate, keys] using h
    · simp only [keys, List.map_cons, List.nodup_cons] at h
      simp only [aupdate, hk, if_false, keys, List.map_cons, List.nodup_cons]
      refine ⟨?_, ih h.2⟩
      intro hm
      rcases mem_keys_aupdate_elim v rest hm with he | he
      · exact hk he
      · exact h.1 he

theorem mem_keys_aremove {α : Type} {m k : String} (l : List (String × α))
    (h : m ∈ keys (aremove k l)) : m ∈ keys l := by
  induction l with
  | nil => simp [aremove, keys] at h
  | cons p rest ih =>
    obtain ⟨k', v'⟩ := p
    by_cases hk : k' = k
    · subst hk
      simp only [aremove, if_pos rfl] at h
      exact (mem_keys_cons _ _ _ _).mpr (Or.inr (ih h))
    · simp only [aremove, hk, if_false] at h
      rcases (mem_keys_cons _ _ _ _).mp h with h | h
      · exact (mem_keys_cons _ _ _ _).mpr (Or.inl h)
      · exact (mem_keys_cons _ _ _ _).mpr (Or.inr (ih h))

theorem nodup_keys_aremove {α : Type} {k : String} {l : List (String × α)}
    (h : (keys l).Nodup) : (keys (aremove k l)).Nodup := by
  induction l with
  | nil => simpa [aremove] using h
  | cons p rest ih =>
    obtain ⟨k', v'⟩ := p
    simp only [keys, List.map_cons, List.nodup_cons] at h
    by_cases hk : k' = k
    · subst hk
      simpa [aremove] using ih h.2
    · simp only [aremove, hk, if_false, keys, List.map_cons, List.nodup_cons]
      exact ⟨fun hm => h.1 (mem_keys_aremove rest hm), ih h.2⟩

theorem countP_key_one {α : Type} {n : String} (L : List (String × α))
    (hnd : (keys L).Nodup) (h : (alookup n L).isSome = true) :
    L.countP (fun p => p.1 == n) = 1 := by
  induction L with
  | nil => simp [alookup] at h
  | cons p rest ih =>
    obtain ⟨k, v⟩ := p
    simp only [keys, List.map_cons, List.nodup_cons] at hnd
    by_cases hk : k = n
    · subst hk
      have h0 : rest.countP (fun p => p.1 == k) = 0 := by
        refine List.countP_eq_zero.mpr ?_
        intro a ha hab
        refine hnd.1 ?_
        have : a.1 = k := by simpa using hab
        rw [← this]
        exact List.mem_map_of_mem Prod.fst ha
      simp [List.countP_cons, h0]
    · have h' : (alookup n rest).isSome = true := by
        simpa [alookup, hk] using h
      simp [List.countP_cons, hk, ih hnd.2 h']

/-! ## Lemmas about the factory operations -/

@[simp] theorem refreshLoggers_defaultLevel (r : Factory) :
    (refreshLoggers r).defaultLevel = r.defaultLevel := rfl

@[simp] theorem refreshLoggers_out (r : Factory) :
    (refreshLoggers r).out = r.out := rfl

@[simp] theorem refreshLoggers_encoder (r : Factory) :
    (refreshLoggers r).encoder = r.encoder := rfl

theorem alookup_refreshLoggers (r : Factory) (n : String) :
    alookup n (refreshLoggers r).loggers
      = (alookup n r.loggers).map
          (fun i => { i with atomicLogger := newLogger r n i.levelEnabler }) := by
  simp [refreshLoggers, alookup_mapVals]

theorem alookup_refreshLoggers_levelEnabler (r : Factory) (n : String) :
    (alookup n (refreshLoggers r).loggers).map (·.levelEnabler)
      = (alookup n r.loggers).map (·.levelEnabler) := by
  rw [alookup_refreshLoggers]
  cases alookup n r.loggers <;> rfl

@[simp] theorem getLoggerInfo_defaultLevel (r : Factory) (n : String) :
    (getLoggerInfo r n).defaultLevel = r.defaultLevel := by
  unfold getLoggerInfo
  cases alookup n r.loggers <;> rfl

@[simp] theorem getLoggerInfo_encoder (r : Factory) (n : String) :
    (getLoggerInfo r n).encoder = r.encoder := by
  unfold getLoggerInfo
  cases alookup n r.loggers <;> rfl

@[simp] theorem getLoggerInfo_out (r : Factory) (n : String) :
    (getLoggerInfo r n).out = r.out := by
  unfold getLoggerInfo
  cases alookup n r.loggers <;> rfl

@[simp] theorem getLoggerInfo_addCaller (r : Factory) (n : String) :
    (getLoggerInfo r n).addCaller = r.addCaller := by
  unfold getLoggerInfo
  cases alookup n r.loggers <;> rfl

theorem getLoggerInfo_found {r : Factory} {n : String} {i : LoggerInfo}
    (h : alookup n r.loggers = some i) : getLoggerInfo r n = r := by
  simp [getLoggerInfo, h]

theorem alookup_getLoggerInfo_self (r : Factory) (n : String) :
    ∃ i, alookup n (getLoggerInfo r n).loggers = some i := by
  unfold getLoggerInfo
  cases hl : alookup n r.loggers with
  | some i => exact ⟨i, hl⟩
  | none =>
    refine ⟨⟨none, newLogger r n none⟩, ?_⟩
    simpa using alookup_append_self r.loggers hl _

theorem alookup_getLoggerInfo_ne {r : Factory} {n' n : String} (h : n' ≠ n) :
    alookup n' (getLoggerInfo r n).loggers = alookup n' r.loggers := by
  unfold getLoggerInfo
  cases hl : alookup n r.loggers with
  | some i => rfl
  | none => simpa using alookup_append_ne r.loggers h _

theorem nodup_keys_getLoggerInfo {r : Factory} (n : String)
    (h : (keys r.loggers).Nodup) : (keys (getLoggerInfo r n).loggers).Nodup := by
  unfold getLoggerInfo
  cases hl : alookup n r.loggers with
  | some i => exact h
  | none =>
    have hn : n ∉ keys r.loggers := (alookup_eq_none_iff n r.loggers).mp hl
    simp only [keys, List.map_append, List.map_cons, List.map_nil]
    rw [List.nodup_append]
    refine ⟨h, List.nodup_singleton n, ?_⟩
    intro a ha hb
    simp only [List.mem_singleton] at hb
    subst hb
    exact hn ha

@[simp] theorem setLevel_defaultLevel (r : Factory) (n : String) (l : Level) :
    (setLevel r n l).defaultLevel = r.defaultLevel := by
  simp [setLevel]

@[simp] theorem setLevel_encoder (r : Factory) (n : String) (l : Level) :
    (setLevel r n l).encoder = r.encoder := by
  simp [setLevel]

@[simp] theorem setLevel_out (r : Factory) (n : String) (l : Level) :
    (setLevel r n l).out = r.out := by
  simp [setLevel]

@[simp] theorem setLevel_addCaller (r : Factory) (n : String) (l : Level) :
    (setLevel r n l).addCaller = r.addCaller := by
  simp [setLevel]

theorem alookup_setLevel_self (r : Factory) (n : String) (l : Level) :
    (alookup n (setLevel r n l).loggers).map (·.levelEnabler)
      = some (some (.fixed l)) := by
  unfold setLevel
  simp only []
  rw [alookup_amodify_self]
  obtain ⟨i, hi⟩ := alookup_getLoggerInfo_self r n
  rw [hi]
  rfl

theorem alookup_setLevel_ne {r : Factory} {n' n : String} (l : Level) (h : n' ≠ n) :
    alookup n' (setLevel r n l).loggers = alookup n' r.loggers := by
  unfold setLevel
  simp only []
  rw [alookup_amodify_ne _ _ h]
  exact alookup_getLoggerInfo_ne h

theorem alookup_setLevel_none {r : Factory} {n : String} (l : Level)
    (h : alookup n r.loggers = none) :
    alookup n (setLevel r n l).loggers
      = some ⟨some (.fixed l), newLogger r n none⟩ := by
  unfold setLevel getLoggerInfo
  rw [h]
  simp only []
  rw [alookup_amodify_self]
  have := alookup_append_self r.loggers h (⟨none, newLogger r n none⟩ : LoggerInfo)
  simp only [this]
  rfl

theorem setLevel_atomic {r : Factory} {m : String} {i : LoggerInfo}
    (n : String) (l : Level) (h : alookup m r.loggers = some i) :
    ∃ i', alookup m (setLevel r n l).loggers = some i'
      ∧ i'.atomicLogger = i.atomicLogger := by
  by_cases hm : m = n
  · subst hm
    refine ⟨{ i with levelEnabler := some (.fixed l) }, ?_, rfl⟩
    unfold setLevel
    simp only []
    rw [alookup_amodify_self, getLoggerInfo_found h, h]
    rfl
  · exact ⟨i, by rw [alookup_setLevel_ne l hm]; exact h, rfl⟩

/-! ## Lemmas about the `setLevels` loop of `LevelsString` -/

theorem setLevels_cons (r : Factory) (k : String) (v : Level)
    (lm : List (String × Level)) :
    setLevels r ((k, v) :: lm) = setLevels (setLevel r k v) lm := rfl

theorem setLevels_defaultLevel (r : Factory) (lm : List (String × Level)) :
    (setLevels r lm).defaultLevel = r.defaultLevel := by
  induction lm generalizing r with
  | nil => rfl
  | cons kv rest ih =>
    obtain ⟨k, v⟩ := kv
    rw [setLevels_cons, ih, setLevel_defaultLevel]

theorem alookup_setLevels_not_mem {n : String} {lm : List (String × Level)}
    (r : Factory) (h : alookup n lm = none) :
    alookup n (setLevels r lm).loggers = alookup n r.loggers := by
  induction lm generalizing r with
  | nil => rfl
  | cons kv rest ih =>
    obtain ⟨k, v⟩ := kv
    have hk : ¬k = n := by
      intro e
      simp [alookup, e] at h
    have hrest : alookup n rest = none := by
      simpa [alookup, hk] using h
    rw [setLevels_cons, ih _ hrest, alookup_setLevel_ne v (fun e => hk e.symm)]

theorem alookup_setLevels_mem {n : String} {l : Level} {lm : List (String × Level)}
    (r : Factory) (hnd : (keys lm).Nodup) (h : alookup n lm = some l) :
    (alookup n (setLevels r lm).loggers).map (·.levelEnabler)
      = some (some (.fixed l)) := by
  induction lm generalizing r with
  | nil => simp [alookup] at h
  | cons kv rest ih =>
    obtain ⟨k, v⟩ := kv
    simp only [keys, List.map_cons, List.nodup_cons] at hnd
    by_cases hk : k = n
    · subst hk
      have hv : v = l := by simpa [alookup] using h
      subst hv
      have hout : alookup k rest = none := by
        rw [alookup_eq_none_iff]
        exact hnd.1
      rw [setLevels_cons, alookup_setLevels_not_mem _ hout, alookup_setLevel_self]
    · have hrest : alookup n rest = some l := by simpa [alookup, hk] using h
      rw [setLevels_cons]
      exact ih _ hnd.2 hrest

theorem setLevels_atomic {m : String} {i : LoggerInfo} {lm : List (String × Level)}
    (r : Factory) (h : alookup m r.loggers = some i) :
    ∃ i', alookup m (setLevels r lm).loggers = some i'
      ∧ i'.atomicLogger = i.atomicLogger := by
  induction lm generalizing r i with
  | nil => exact ⟨i, h, rfl⟩
  | cons kv rest ih =>
    obtain ⟨k, v⟩ := kv
    obtain ⟨i1, h1, e1⟩ := setLevel_atomic k v h
    obtain ⟨i2, h2, e2⟩ := ih _ h1
    exact ⟨i2, by rw [setLevels_cons]; exact h2, by rw [e2, e1]⟩

/-! ## Unique keys of the parsed level map -/

theorem nodup_keys_parseItem {m : List (String × ConfigVal)} (x : String)
    (h : (keys m).Nodup) : (keys (parseItem m x)).Nodup := by
  unfold parseItem
  split
  · split
    · exact nodup_keys_aupdate _ h
    · exact nodup_keys_aupdate _ h
  · exact nodup_keys_aupdate _ h
  · exact h

theorem nodup_keys_foldl_parseItem (items : List String) :
    ∀ acc : List (String × ConfigVal),
      (keys acc).Nodup → (keys (items.foldl parseItem acc)).Nodup := by
  induction items with
  | nil => exact fun acc h => h
  | cons x xs ih =>
    intro acc h
    exact ih _ (nodup_keys_parseItem x h)

theorem nodup_keys_parseConfigString (s : String) :
    (keys (parseConfigString s)).Nodup := by
  unfold parseConfigString
  split
  · simp [keys]
  · exact nodup_keys_foldl_parseItem _ _ (by simp [keys])

theorem nodup_keys_buildLevelStep {acc : List (String × Level) × List String}
    (kv : String × ConfigVal) (h : (keys acc.1).Nodup) :
    (keys (buildLevelStep acc kv).1).Nodup := by
  unfold buildLevelStep
  split
  · exact nodup_keys_aupdate _ h
  · exact nodup_keys_aupdate _ h

theorem nodup_keys_foldl_buildLevelStep (m : List (String × ConfigVal)) :
    ∀ acc : List (String × Level) × List String,
      (keys acc.1).Nodup → (keys (m.foldl buildLevelStep acc).1).Nodup := by
  induction m with
  | nil => exact fun acc h => h
  | cons kv rest ih =>
    intro acc h
    exact ih _ (nodup_keys_buildLevelStep kv h)

theorem nodup_keys_levelsFromString (s : String) :
    (keys (levelsFromString s).1).Nodup := by
  unfold levelsFromString buildLevelMap
  exact nodup_keys_foldl_buildLevelStep _ _ (by simp [keys])

/-! ## Effective-level lemmas -/

theorem effectiveLevel_of_fixed {r : Factory} {n : String} {l : Level}
    (h : (alookup n r.loggers).map (·.levelEnabler) = some (some (.fixed l))) :
    effectiveLevel r n = l := by
  unfold effectiveLevel
  cases hl : alookup n r.loggers with
  | none => simp [hl] at h
  | some i =>
    have h' : i.levelEnabler = some (.fixed l) := by
      simpa [hl] using h
    simp [h']

theorem effectiveLevel_of_defaultRef {r : Factory} {n : String}
    (h : (alookup n r.loggers).map (·.levelEnabler) = some (some .defaultRef)) :
    effectiveLevel r n = r.defaultLevel := by
  unfold effectiveLevel
  cases hl : alookup n r.loggers with
  | none => simp [hl] at h
  | some i =>
    have h' : i.levelEnabler = some .defaultRef := by
      simpa [hl] using h
    simp [h']

theorem effectiveLevel_refreshLoggers (r : Factory) (n : String) :
    effectiveLevel (refreshLoggers r) n = effectiveLevel r n := by
  unfold effectiveLevel
  rw [show (refreshLoggers r).loggers
      = mapVals (fun name info =>
          { info with atomicLogger := newLogger r name info.levelEnabler }) r.loggers
    from rfl]
  rw [alookup_mapVals]
  cases alookup n r.loggers <;> rfl

/-! ## Lemmas about the apply phase of `LevelsString` -/

theorem starSplit_loggers (r : Factory) (lm0 : List (String × Level)) :
    (starSplit r lm0).1.loggers = r.loggers := by
  unfold starSplit
  cases alookup "*" lm0 <;> rfl

theorem starSplit_defaultLevel_star {r : Factory} {lm0 : List (String × Level)}
    {d : Level} (h : alookup "*" lm0 = some d) :
    (starSplit r lm0).1.defaultLevel = d := by
  simp [starSplit, h, SetDefaultLevel]

theorem starSplit_snd_lookup_ne {n : String} (r : Factory)
    (lm0 : List (String × Level)) (hne : n ≠ "*") :
    alookup n (starSplit r lm0).2 = alookup n lm0 := by
  unfold starSplit
  cases h : alookup "*" lm0 with
  | none => rfl
  | some d => exact alookup_aremove_ne lm0 hne

theorem starSplit_snd_lookup_none {n : String} (r : Factory)
    {lm0 : List (String × Level)} (h0 : alookup n lm0 = none) :
    alookup n (starSplit r lm0).2 = none := by
  unfold starSplit
  cases h : alookup "*" lm0 with
  | none => exact h0
  | some d =>
    by_cases hne : n = "*"
    · subst hne
      rw [h0] at h
      cases h
    · exact (alookup_aremove_ne lm0 hne).trans h0

theorem starSplit_snd_nodup {r : Factory} {lm0 : List (String × Level)}
    (h : (keys lm0).Nodup) : (keys (starSplit r lm0).2).Nodup := by
  unfold starSplit
  cases alookup "*" lm0 with
  | none => exact h
  | some d => exact nodup_keys_aremove h

theorem clearUnmentioned_lookup (r : Factory) (lm : List (String × Level))
    (n : String) :
    alookup n (clearUnmentioned r lm).loggers
      = (alookup n r.loggers).map
          (fun info =>
            if (alookup n lm).isSome then info
            else { info with levelEnabler := some .defaultRef }) := by
  unfold clearUnmentioned
  exact alookup_mapVals
    (fun name info =>
      if (alookup name lm).isSome then info
      else { info with levelEnabler := some .defaultRef })
    r.loggers n

theorem clearUnmentioned_defaultLevel (r : Factory) (lm : List (String × Level)) :
    (clearUnmentioned r lm).defaultLevel = r.defaultLevel := rfl

theorem applyLevelMap_defaultLevel_star {r : Factory} {lm0 : List (String × Level)}
    {d : Level} (h : alookup "*" lm0 = some d) :
    (applyLevelMap r lm0).defaultLevel = d := by
  unfold applyLevelMap
  rw [setLevels_defaultLevel, clearUnmentioned_defaultLevel]
  exact starSplit_defaultLevel_star h

theorem applyLevelMap_mem {r : Factory} {lm0 : List (String × Level)}
    {n : String} {l : Level} (hnd : (keys lm0).Nodup) (hne : n ≠ "*")
    (h : alookup n lm0 = some l) :
    (alookup n (applyLevelMap r lm0).loggers).map (·.levelEnabler)
      = some (some (.fixed l)) := by
  unfold applyLevelMap
  refine alookup_setLevels_mem _ (starSplit_snd_nodup hnd) ?_
  rw [starSplit_snd_lookup_ne r lm0 hne]
  exact h

theorem applyLevelMap_cleared {r : Factory} {lm0 : List (String × Level)}
    {n : String} {i : LoggerInfo} (hr : alookup n r.loggers = some i)
    (h0 : alookup n lm0 = none) :
    (alookup n (applyLevelMap r lm0).loggers).map (·.levelEnabler)
      = some (some .defaultRef) := by
  unfold applyLevelMap
  have hs : alookup n (starSplit r lm0).2 = none := starSplit_snd_lookup_none r h0
  rw [alookup_setLevels_not_mem _ hs, clearUnmentioned_lookup, starSplit_loggers, hr]
  simp [hs]

theorem applyLevelMap_atomic {r : Factory} {lm0 : List (String × Level)}
    {n : String} {i : LoggerInfo} (hr : alookup n r.loggers = some i) :
    ∃ i', alookup n (applyLevelMap r lm0).loggers = some i'
      ∧ i'.atomicLogger = i.atomicLogger := by
  unfold applyLevelMap
  have hc : alookup n (clearUnmentioned (starSplit r lm0).1 (starSplit r lm0).2).loggers
      = some (if (alookup n (starSplit r lm0).2).isSome then i
              else { i with levelEnabler := some .defaultRef }) := by
    rw [clearUnmentioned_lookup, starSplit_loggers, hr]
    rfl
  obtain ⟨i', h', e'⟩ := setLevels_atomic _ hc
  refine ⟨i', h', ?_⟩
  rw [e']
  split <;> rfl

/-! ## The two result paths of `LevelsString` -/

theorem levelsString_error (r : Factory) (s : String)
    (h : (levelsFromString s).2.isEmpty = false) :
    LevelsString r s
      = (applyLevelMap r (levelsFromString s).1,
         some ("errors parsing config string: " ++ joinComma (levelsFromString s).2)) := by
  simp [LevelsString, h]

theorem levelsString_ok (r : Factory) (s : String)
    (h : (levelsFromString s).2.isEmpty = true) :
    LevelsString r s
      = (refreshLoggers (applyLevelMap r (levelsFromString s).1), none) := by
  simp [LevelsString, h]

theorem levelsString_isSome_iff (r : Factory) (s : String) :
    (LevelsString r s).2.isSome = true ↔ (levelsFromString s).2.isEmpty = false := by
  cases h : (levelsFromString s).2.isEmpty
  · simp [levelsString_error r s h]
  · simp [levelsString_ok r s h]

/-! ## Claim theorems -/

/-- C1 counterexample: on a registry whose `sql` entry carries a fixed
DEBUG override, `LevelsString "*=INF,bogus=XYZ"` returns the aggregated
error and records the cleared override, but the published concrete
instance of `sql` still carries the stale fixed-DEBUG enabler and differs
from what a rebuild would publish — the rebuild pass claimed by C1 did
not happen. -/
theorem claim1_counterexample :
    ((LevelsString (SetLevel NewFactory "sql" Level.debug) "*=INF,bogus=XYZ").2.isSome
        = true) ∧
    ((alookup "sql"
        (LevelsString (SetLevel NewFactory "sql" Level.debug) "*=INF,bogus=XYZ").1.loggers).map
          (·.levelEnabler) = some (some .defaultRef)) ∧
    ((alookup "sql"
        (LevelsString (SetLevel NewFactory "sql" Level.debug) "*=INF,bogus=XYZ").1.loggers).map
          (·.atomicLogger)
      ≠ (alookup "sql"
          (LevelsString (SetLevel NewFactory "sql" Level.debug) "*=INF,bogus=XYZ").1.loggers).map
            (fun i =>
              newLogger
                (LevelsString (SetLevel NewFactory "sql" Level.debug) "*=INF,bogus=XYZ").1
                "sql" i.levelEnabler)) := by
  decide

/-- C1 (amended): when the level string contains an unrecognized
abbreviation, `LevelsString` still applies every recognized setting — the
`*` default, every mentioned name's override, and the reset of existing
unmentioned entries — and returns the aggregated error, but it skips the
rebuild pass: every previously existing entry keeps its previously
published concrete instance. -/
theorem claim1_levels_string_partial (r : Factory) (s : String)
    (herr : (LevelsString r s).2.isSome = true) :
    (∀ d, alookup "*" (levelsFromString s).1 = some d →
      (LevelsString r s).1.defaultLevel = d) ∧
    (∀ n l, n ≠ "*" → alookup n (levelsFromString s).1 = some l →
      (alookup n (LevelsString r s).1.loggers).map (·.levelEnabler)
        = some (some (.fixed l))) ∧
    (∀ n i, alookup n r.loggers = some i →
      alookup n (levelsFromString s).1 = none →
      (alookup n (LevelsString r s).1.loggers).map (·.levelEnabler)
        = some (some .defaultRef)) ∧
    (∀ n i, alookup n r.loggers = some i →
      ∃ i', alookup n (LevelsString r s).1.loggers = some i'
        ∧ i'.atomicLogger = i.atomicLogger) := by
  have hne : (levelsFromString s).2.isEmpty = false :=
    (levelsString_isSome_iff r s).mp herr
  have e := levelsString_error r s hne
  refine ⟨?_, ?_, ?_, ?_⟩
  · intro d hd
    simp only [e]
    exact applyLevelMap_defaultLevel_star hd
  · intro n l hn hl
    simp only [e]
    exact applyLevelMap_mem (nodup_keys_levelsFromString s) hn hl
  · intro n i hr h0
    simp only [e]
    exact applyLevelMap_cleared hr h0
  · intro n i hr
    simp only [e]
    exact applyLevelMap_atomic hr

/-- C1 witness: the amended theorem applied to the concrete registry and
spec of the counterexample — the default is set to INFO and the
unrecognized `bogus` entry gets the WARN fallback override, while the
error is returned. -/
theorem claim1_levels_string_partial_witness :
    (LevelsString (SetLevel NewFactory "sql" Level.debug) "*=INF,bogus=XYZ").1.defaultLevel
        = Level.info ∧
    (alookup "bogus"
        (LevelsString (SetLevel NewFactory "sql" Level.debug) "*=INF,bogus=XYZ").1.loggers).map
          (·.levelEnabler) = some (some (.fixed Level.info)) := by
  have h := claim1_levels_string_partial (SetLevel NewFactory "sql" Level.debug)
    "*=INF,bogus=XYZ" (by decide)
  exact ⟨h.1 Level.info (by decide), h.2.1 "bogus" Level.info (by decide) (by decide)⟩

/-- C2: after `LevelsString "*=INF,http"` on a registry where `sql` has a
fixed per-name override, no error is returned, the default level is INFO,
`http` resolves to ALL, `sql`'s enabler is reset to the shared default
reference so it tracks the default (including future default changes),
and `LevelsString "*=INF,-http"` resolves `http` to OFF. -/
theorem claim2_levels_string_example (r : Factory) (i : LoggerInfo) (l0 : Level)
    (hsql : alookup "sql" r.loggers = some i)
    (_hov : i.levelEnabler = some (.fixed l0)) :
    (LevelsString r "*=INF,http").2 = none ∧
    (LevelsString r "*=INF,http").1.defaultLevel = Level.info ∧
    effectiveLevel (LevelsString r "*=INF,http").1 "http" = Level.all ∧
    (alookup "sql" (LevelsString r "*=INF,http").1.loggers).map (·.levelEnabler)
      = some (some .defaultRef) ∧
    effectiveLevel (LevelsString r "*=INF,http").1 "sql"
      = (LevelsString r "*=INF,http").1.defaultLevel ∧
    (∀ l', effectiveLevel (SetDefaultLevel (LevelsString r "*=INF,http").1 l') "sql" = l') ∧
    effectiveLevel (LevelsString r "*=INF,-http").1 "http" = Level.off := by
  have e1 : LevelsString r "*=INF,http"
      = (refreshLoggers (applyLevelMap r (levelsFromString "*=INF,http").1), none) :=
    levelsString_ok r _ (by decide)
  have e2 : LevelsString r "*=INF,-http"
      = (refreshLoggers (applyLevelMap r (levelsFromString "*=INF,-http").1), none) :=
    levelsString_ok r _ (by decide)
  have hse : (alookup "sql"
      (applyLevelMap r (levelsFromString "*=INF,http").1).loggers).map (·.levelEnabler)
      = some (some .defaultRef) :=
    applyLevelMap_cleared hsql (by decide)
  refine ⟨?_, ?_, ?_, ?_, ?_, ?_, ?_⟩
  · simp only [e1]
  · simp only [e1, refreshLoggers_defaultLevel]
    exact applyLevelMap_defaultLevel_star (by decide)
  · simp only [e1, effectiveLevel_refreshLoggers]
    exact effectiveLevel_of_fixed
      (applyLevelMap_mem (nodup_keys_levelsFromString _) (by decide) (by decide))
  · simp only [e1]
    rw [alookup_refreshLoggers_levelEnabler]
    exact hse
  · simp only [e1]
    exact effectiveLevel_of_defaultRef
      (by rw [alookup_refreshLoggers_levelEnabler]; exact hse)
  · intro l'
    simp only [e1]
    refine effectiveLevel_of_defaultRef ?_
    show (alookup "sql"
        (refreshLoggers (applyLevelMap r (levelsFromString "*=INF,http").1)).loggers).map
          (·.levelEnabler) = some (some .defaultRef)
    rw [alookup_refreshLoggers_levelEnabler]
    exact hse
  · simp only [e2, effectiveLevel_refreshLoggers]
    exact effectiveLevel_of_fixed
      (applyLevelMap_mem (nodup_keys_levelsFromString _) (by decide) (by decide))

/-- C2 witness: the theorem applied to the concrete registry obtained by
creating `sql` and giving it a fixed DEBUG override. -/
theorem claim2_levels_string_example_witness :
    (LevelsString (SetLevel (NewLogger NewFactory "sql").1 "sql" Level.debug)
        "*=INF,http").2 = none ∧
    (LevelsString (SetLevel (NewLogger NewFactory "sql").1 "sql" Level.debug)
        "*=INF,http").1.defaultLevel = Level.info ∧
    effectiveLevel
      (LevelsString (SetLevel (NewLogger NewFactory "sql").1 "sql" Level.debug)
        "*=INF,http").1 "http" = Level.all := by
  have h := claim2_levels_string_example
    (SetLevel (NewLogger NewFactory "sql").1 "sql" Level.debug)
    ⟨some (.fixed Level.debug),
      ⟨"sql", .fixed Level.debug, Encoder.ltsv ⟨none, none, false⟩, .stdout, false⟩⟩
    Level.debug (by decide) rfl
  exact ⟨h.1, h.2.1, h.2.2.1⟩

/-- C3: `levelForAbbr` maps a (case-insensitive) `wrn`/`warn`
abbreviation to the INFO-equivalent level with a non-nil note, maps
`pan`/`panic`/`ftl`/`fatal` to the ERROR-equivalent level with a non-nil
note, and maps every unrecognized abbreviation to the WARN/INFO-equivalent
fallback with a non-nil "not recognized" note. -/
theorem claim3_levelForAbbr (s : String) :
    ((toLowerStr s = "wrn" ∨ toLowerStr s = "warn") →
      (levelForAbbr s).1 = InfoLevel ∧ (levelForAbbr s).2.isSome = true) ∧
    ((toLowerStr s = "pan" ∨ toLowerStr s = "panic"
        ∨ toLowerStr s = "ftl" ∨ toLowerStr s = "fatal") →
      (levelForAbbr s).1 = ErrorLevel ∧ (levelForAbbr s).2.isSome = true) ∧
    (toLowerStr s ∉ recognizedAbbrs →
      (levelForAbbr s).1 = WarnLevel ∧ (levelForAbbr s).2.isSome = true) := by
  refine ⟨?_, ?_, ?_⟩
  · intro h
    unfold levelForAbbr
    rcases h with h | h <;> rw [h] <;> exact ⟨rfl, rfl⟩
  · intro h
    unfold levelForAbbr
    rcases h with h | h | h | h <;> rw [h] <;> exact ⟨rfl, rfl⟩
  · intro h
    simp only [recognizedAbbrs, List.mem_cons, List.mem_singleton, not_or] at h
    obtain ⟨h1, h2, h3, h4, h5, h6, h7, h8, h9, h10, h11, h12, h13, h14, h15, h16⟩ := h
    unfold levelForAbbr levelForAbbrLower
    simp [h1, h2, h3, h4, h5, h6, h7, h8, h9, h10, h11, h12, h13, h14, h15, h16]

/-- C3 witness: the three branches at `WRN`, `Fatal` and `bogus`. -/
theorem claim3_levelForAbbr_witness :
    (levelForAbbr "WRN").1 = InfoLevel ∧ (levelForAbbr "WRN").2.isSome = true ∧
    (levelForAbbr "Fatal").1 = ErrorLevel ∧ (levelForAbbr "Fatal").2.isSome = true ∧
    (levelForAbbr "bogus").1 = WarnLevel ∧ (levelForAbbr "bogus").2.isSome = true := by
  have hw := (claim3_levelForAbbr "WRN").1 (Or.inl (by decide))
  have hf := (claim3_levelForAbbr "Fatal").2.1 (Or.inr (Or.inr (Or.inr (by decide))))
  have hb := (claim3_levelForAbbr "bogus").2.2 (by decide)
  exact ⟨hw.1, hw.2, hf.1, hf.2, hb.1, hb.2⟩

/-- C4 counterexample: `SetLevel` on an absent name does create a
registry entry for it (via `setLevel`/`getLoggerInfo`), contradicting the
claim that no entry is created. -/
theorem claim4_counterexample :
    alookup "db" NewFactory.loggers = none ∧
    (alookup "db" (SetLevel NewFactory "db" Level.debug).loggers).isSome = true := by
  decide

/-- C4 (amended): `SetLevel` on an absent name records the per-name
override and triggers the rebuild pass, creating the registry entry
immediately: afterwards the entry exists, carries the fixed override, and
its published concrete instance is built from the override and the
current shared settings. -/
theorem claim4_set_level_creates (r : Factory) (n : String) (l : Level)
    (h : alookup n r.loggers = none) :
    ∃ i, alookup n (SetLevel r n l).loggers = some i
      ∧ i.levelEnabler = some (.fixed l)
      ∧ i.atomicLogger.enabler = .fixed l
      ∧ i.atomicLogger.encoder = getEncoder r
      ∧ i.atomicLogger.out = getOut r
      ∧ i.atomicLogger.addCaller = r.addCaller := by
  unfold SetLevel
  rw [alookup_refreshLoggers, alookup_setLevel_none l h]
  refine ⟨_, rfl, rfl, rfl, ?_, ?_, ?_⟩
  · show getEncoder (setLevel r n l) = getEncoder r
    unfold getEncoder
    rw [setLevel_encoder]
  · show getOut (setLevel r n l) = getOut r
    unfold getOut
    rw [setLevel_out]
  · show (setLevel r n l).addCaller = r.addCaller
    exact setLevel_addCaller r n l

/-- C4 witness: the amended theorem at `NewFactory`, name `db`, level
DEBUG. -/
theorem claim4_set_level_creates_witness :
    (alookup "db" (SetLevel NewFactory "db" Level.debug).loggers).map (·.levelEnabler)
      = some (some (.fixed Level.debug)) ∧
    (alookup "db" (SetLevel NewFactory "db" Level.debug).loggers).map
        (·.atomicLogger.enabler) = some (.fixed Level.debug) := by
  obtain ⟨i, hi, h1, h2, -, -, -⟩ :=
    claim4_set_level_creates NewFactory "db" Level.debug (by decide)
  simp [hi, h1, h2]

/-- C5: `NewLogger` twice with the same name is idempotent on the
registry and returns equal facades bound to the same entry; the registry
holds exactly one entry for the name, so after any single administrative
reconfiguration both facades observe the identical published concrete
instance. -/
theorem claim5_shared_entry (r : Factory) (n : String) (op : AdminOp)
    (hnd : (keys r.loggers).Nodup) :
    (NewLogger (NewLogger r n).1 n).1 = (NewLogger r n).1 ∧
    (NewLogger (NewLogger r n).1 n).2 = (NewLogger r n).2 ∧
    (NewLogger (NewLogger r n).1 n).1.loggers.countP (fun p => p.1 == n) = 1 ∧
    observe (applyOp (NewLogger (NewLogger r n).1 n).1 op) (NewLogger r n).2
      = observe (applyOp (NewLogger (NewLogger r n).1 n).1 op)
          (NewLogger (NewLogger r n).1 n).2 := by
  obtain ⟨i, hi⟩ := alookup_getLoggerInfo_self r n
  have hidem : (NewLogger (NewLogger r n).1 n).1 = (NewLogger r n).1 :=
    getLoggerInfo_found hi
  refine ⟨hidem, rfl, ?_, rfl⟩
  rw [hidem]
  show (getLoggerInfo r n).loggers.countP (fun p => p.1 == n) = 1
  exact countP_key_one _ (nodup_keys_getLoggerInfo n hnd) (by rw [hi]; rfl)

/-- C5 witness: the theorem at the empty factory, name `db`, and a
`SetEncoder` reconfiguration. -/
theorem claim5_shared_entry_witness :
    (NewLogger (NewLogger NewFactory "db").1 "db").1 = (NewLogger NewFactory "db").1 ∧
    (NewLogger (NewLogger NewFactory "db").1 "db").1.loggers.countP
      (fun p => p.1 == "db") = 1 := by
  have h := claim5_shared_entry NewFactory "db"
    (.encoderOp (NewJSONEncoder NewEncoderConfig)) (by decide)
  exact ⟨h.1, h.2.2.1⟩

/-- C6: the restorer captured by `SetOut` round-trips the output sink:
after any sequence of further administrative operations, invoking the
restorer sets the factory's output back to the sink active before the
original `SetOut`, and every entry's freshly republished concrete
instance writes to that sink. -/
theorem claim6_restorer_roundtrip (r : Factory) (w : Option Writer)
    (ops : List AdminOp) :
    (SetOut (applyOps (SetOut r w).1 ops) (SetOut r w).2).1.out = r.out ∧
    ((SetOut (applyOps (SetOut r w).1 ops) (SetOut r w).2).1.loggers.all
      (fun p => decide (p.2.atomicLogger.out = getOut r))) = true := by
  constructor
  · rfl
  · rw [List.all_eq_true]
    intro p hp
    replace hp : p ∈ List.map
        (fun q => (q.1,
          { q.2 with
            atomicLogger :=
              newLogger { applyOps (SetOut r w).1 ops with out := r.out } q.1
                q.2.levelEnabler }))
        (applyOps (SetOut r w).1 ops).loggers := hp
    obtain ⟨q, hq, rfl⟩ := List.mem_map.mp hp
    exact decide_eq_true rfl

/-- C7: `With` derives a child facade whose context is the parent's
context followed by the normalized arguments and which shares the
parent's handle, while the parent's own log records never contain a field
that is in neither the parent's context nor the parent's own call
arguments — the child's added fields do not leak into the parent. -/
theorem claim7_with_frame (l : FLogger) (args : List Arg) :
    (With l args).context = l.context ++ normalizeArgs args ∧
    (With l args).handle = l.handle ∧
    (∀ (x : Arg) (m : String) (cargs : List Arg),
      x ∉ l.context → x ∉ normalizeArgs cargs → x ∉ (Debug l m cargs).fields) := by
  refine ⟨?_, ?_, ?_⟩
  · unfold With clone
    cases hn : normalizeArgs args with
    | nil => cases hc : l.context <;> simp [hc]
    | cons a as => cases hc : l.context <;> simp [hc]
  · unfold With clone
    cases normalizeArgs args <;> rfl
  · intro x m cargs hx hc
    unfold Debug
    by_cases h : 0 < l.context.length
    · simp [h, List.mem_append, hx, hc]
    · simp [h, hc]

/-- C7 witness: a concrete parent, child arguments, and parent call. -/
theorem claim7_with_frame_witness :
    (With ⟨"root", [Arg.field "a" (Value.str "1")]⟩ [Arg.field "k" (Value.str "v")]).context
      = [Arg.field "a" (Value.str "1"), Arg.field "k" (Value.str "v")] ∧
    Arg.field "k" (Value.str "v") ∉
      (Debug ⟨"root", [Arg.field "a" (Value.str "1")]⟩ "msg"
        [Arg.field "b" (Value.str "2")]).fields := by
  have h := claim7_with_frame ⟨"root", [Arg.field "a" (Value.str "1")]⟩
    [Arg.field "k" (Value.str "v")]
  exact ⟨h.1.trans (by decide),
    h.2.2 (Arg.field "k" (Value.str "v")) "msg" [Arg.field "b" (Value.str "2")]
      (by decide) (by decide)⟩

/-- C8: a log call with exactly one bare non-field argument normalizes it
into a field with an empty key, and the emitted record's field sequence
is exactly the facade's baked-in context followed by that normalized
field. -/
theorem claim8_bare_arg (l : FLogger) (m : String) (v : Value) :
    normalizeArgs [Arg.bare v] = [Arg.field "" v] ∧
    (Debug l m [Arg.bare v]).fields = l.context ++ [Arg.field "" v] := by
  refine ⟨rfl, ?_⟩
  unfold Debug
  cases hc : l.context with
  | nil => simp [normalizeArgs, zapAny]
  | cons a as => simp [normalizeArgs, zapAny]

/-- C9 (implicit): `Configure` discards the error returned by
`LevelsString`: for every configuration whose encoding choice is
recognized or empty, `Configure` returns no error — even when the level
string contains unrecognized or deprecated abbreviations. -/
theorem claim9_configure_discards_error (r : Factory) (cfg : Config)
    (h : cfg.encoding ∈ (["json", "ltsv", "term", "term-color", "console", ""] : List String)) :
    (Configure r cfg).2 = none := by
  obtain ⟨dl, ec, enc, dev, ac, lv⟩ := cfg
  simp only [List.mem_cons, List.not_mem_nil, or_false] at h
  rcases h with h | h | h | h | h | h <;> subst h <;> rfl

/-- C9 witness: the level string `bogus=XYZ` makes `LevelsString` return
an aggregated error, yet `Configure` with the `ltsv` encoding and that
level string returns no error. -/
theorem claim9_configure_discards_error_witness :
    (LevelsString (SetDefaultLevel NewFactory Level.info) "bogus=XYZ").2.isSome = true ∧
    (Configure NewFactory ⟨Level.info, none, "ltsv", false, none, "bogus=XYZ"⟩).2 = none :=
  ⟨by decide,
   claim9_configure_discards_error NewFactory
     ⟨Level.info, none, "ltsv", false, none, "bogus=XYZ"⟩ (by decide)⟩

/-- C10 (implicit): `Configure` with an unrecognized encoding returns an
error, but only after the default level has already been updated to the
configuration's default level; the encoder, output sink, caller-capture
flag and the per-name entries are left unchanged on that error path. -/
theorem claim10_configure_partial_on_error (r : Factory) (cfg : Config)
    (h : cfg.encoding ∉ (["json", "ltsv", "term", "term-color", "console", ""] : List String)) :
    (Configure r cfg).2.isSome = true ∧
    (Configure r cfg).1 = { r with defaultLevel := cfg.defaultLevel } := by
  obtain ⟨dl, ec, enc, dev, ac, lv⟩ := cfg
  simp only [List.mem_cons, List.not_mem_nil, or_false, not_or] at h
  obtain ⟨h1, h2, h3, h4, h5, h6⟩ := h
  constructor
  · simp [Configure, encoderChoice, h1, h2, h3, h4, h5, h6]
  · simp [Configure, encoderChoice, h1, h2, h3, h4, h5, h6, SetDefaultLevel]

/-- C10 witness: the theorem at the empty factory and the unrecognized
encoding `xml`. -/
theorem claim10_configure_partial_on_error_witness :
    (Configure NewFactory ⟨Level.debug, none, "xml", false, none, ""⟩).2.isSome = true ∧
    (Configure NewFactory ⟨Level.debug, none, "xml", false, none, ""⟩).1
      = { NewFactory with defaultLevel := Level.debug } :=
  claim10_configure_partial_on_error NewFactory
    ⟨Level.debug, none, "xml", false, none, ""⟩ (by decide)

end Flume
